import Mathlib

/-!
Verification development for a small password manager consisting of two
Python modules:

* `password.py` — class `PasswordGenerator` with fixed character pools
  (`letters`, `numbers`, `symbols`) and a method `generate` that draws
  `randint(8,10)` letters, `randint(2,5)` symbols and `randint(2,5)` digits,
  each via `random.choice` from its pool, shuffles the combined list and
  joins it into a string.

* `main.py` — `save` (validate fields, title-case the website key, read the
  JSON store catching `FileNotFoundError` and `JSONDecodeError` as an empty
  dict, `dict.update` the new entry, rewrite the whole file) and
  `find_password` (title-case the key, read the JSON store catching only
  `FileNotFoundError`, then look the key up in the dict).

The embedding below makes the randomness of `generate` explicit (the drawn
counts, the per-draw chosen indices and the shuffle permutation are
parameters), and models the persistence file as an explicit `FileState`
value threaded through `save` and `find_password`.  Python exceptions are
modelled with `Except`: an `Except.error` that survives to the result of an
operation is an exception that propagates out of the corresponding Python
function uncaught.
-/

namespace PasswordManager

/-! ### password.py -/

/-- The `letters` pool of `PasswordGenerator.__init__` (52 ASCII letters). -/
def letters : List Char :=
  ['a', 'b', 'c', 'd', 'e', 'f', 'g', 'h', 'i', 'j', 'k',
   'l', 'm', 'n', 'o', 'p', 'q', 'r', 's', 't', 'u', 'v', 'w', 'x', 'y', 'z',
   'A', 'B', 'C', 'D', 'E', 'F', 'G', 'H', 'I', 'J', 'K',
   'L', 'M', 'N', 'O', 'P', 'Q', 'R', 'S', 'T', 'U', 'V', 'W', 'X', 'Y', 'Z']

/-- The `numbers` pool of `PasswordGenerator.__init__` (10 decimal digits). -/
def numbers : List Char :=
  ['0', '1', '2', '3', '4', '5', '6', '7', '8', '9']

/-- The `symbols` pool of `PasswordGenerator.__init__` (9 symbol characters). -/
def symbols : List Char :=
  ['!', '#', '$', '%', '&', '(', ')', '*', '+']

/-- Model of `random.choice(pool)`: the random index (an arbitrary natural, reduced
modulo the pool size, so that exactly the elements of the pool are
reachable) selects an element of the pool. -/
def choice (pool : List Char) (i : Nat) : Char :=
  pool.getD (i % pool.length) 'a'

/-- The list built by the three `for` loops of `PasswordGenerator.generate`
before the shuffle: `nrLetter` letter draws, then `nrSymbols` symbol draws,
then `nrNumbers` digit draws, the `k`-th draw of each loop governed by the
corresponding random index function. -/
def passwordChars (nrLetter nrSymbols nrNumbers : Nat)
    (idxL idxS idxN : Nat → Nat) : List Char :=
  ((List.range nrLetter).map fun k => choice letters (idxL k)) ++
  ((List.range nrSymbols).map fun k => choice symbols (idxS k)) ++
  ((List.range nrNumbers).map fun k => choice numbers (idxN k))

/-- Model of `PasswordGenerator.generate`, with its randomness explicit: the three
counts drawn by `random.randint`, the index functions feeding
`random.choice`, and the permutation applied by `random.shuffle` (an
arbitrary function; theorems assume it permutes its argument).  The final
`"".join` is `List.asString`. -/
def generate (nrLetter nrSymbols nrNumbers : Nat)
    (idxL idxS idxN : Nat → Nat) (shuffle : List Char → List Char) : String :=
  (shuffle (passwordChars nrLetter nrSymbols nrNumbers idxL idxS idxN)).asString

/-! ### Key normalization: Python `str.title()`

`save` builds its storage key as `website.title()` and `find_password`
looks up `website_text_field.get().title()`.  Python `str.title()`
uppercases every cased character that follows a non-cased character (or
starts the string) and lowercases every cased character that follows a
cased character; for the ASCII strings this program handles, "cased"
is exactly "alphabetic". -/

/-- One character of `str.title()`: an alphabetic character is lowercased
when the previous character was alphabetic and uppercased otherwise;
non-alphabetic characters pass through unchanged. -/
def titleChar (prevAlpha : Bool) (c : Char) : Char :=
  if c.isAlpha then (if prevAlpha then c.toLower else c.toUpper) else c

/-- Python `str.title()` over a character list, carrying whether the previous
character was alphabetic. -/
def titleAux : Bool → List Char → List Char
  | _, [] => []
  | prevAlpha, c :: cs => titleChar prevAlpha c :: titleAux c.isAlpha cs

/-- Python `str.title()` (ASCII semantics), the key normalization used by
both `save` and `find_password`. -/
def pyTitle (s : String) : String :=
  (titleAux false s.toList).asString

/-- The storage key computed by `save` (main.py line 75): `website.title()`. -/
def saveKey (website : String) : String := pyTitle website

/-- The lookup key computed by `find_password` (main.py line 126):
`website_text_field.get().title()`. -/
def findKey (website : String) : String := pyTitle website

/-- Title case as the spec's words define it — first letter of each
whitespace-separated word capitalized, the rest of each word lowercased —
written only to be compared with `pyTitle`, the normalization the code
actually applies.  The carry records whether we are at the start of a
whitespace-separated word. -/
def wordTitleAux : Bool → List Char → List Char
  | _, [] => []
  | atStart, c :: cs =>
    if c.isWhitespace then c :: wordTitleAux true cs
    else (if atStart then c.toUpper else c.toLower) :: wordTitleAux false cs

/-- Whitespace-word title case, per the spec sentence backing claim C3. -/
def wordTitle (s : String) : String :=
  (wordTitleAux true s.toList).asString

/-! ### main.py: the credential store -/

/-- A stored credential record: the `{"email": ..., "password": ...}` object. -/
structure Cred where
  email : String
  password : String
deriving DecidableEq, Repr

/-- The JSON store: a mapping website-key to credential, kept as an
insertion-ordered association list with unique keys, the way `json.load`
yields a Python dict. -/
abbrev Store := List (String × Cred)

/-- The state of the persistence file `details_data.json`: absent, present
but not parseable as JSON, or a parsed mapping. -/
inductive FileState
  | missing
  | corrupt
  | valid (data : Store)
deriving DecidableEq, Repr

/-- The Python exceptions the file-reading code can raise. -/
inductive PyExc
  | fileNotFoundError
  | jsonDecodeError
deriving DecidableEq, Repr

/-- Model of `open("details_data.json")` followed by `json.load`: raises
`FileNotFoundError` when the file is absent and `json.JSONDecodeError` when
the contents do not parse; otherwise yields the stored mapping. -/
def loadStore : FileState → Except PyExc Store
  | .missing => .error .fileNotFoundError
  | .corrupt => .error .jsonDecodeError
  | .valid d => .ok d

/-- Python `dict` lookup `data[k]` / `k in data`: the value at the first
(and, for a dict, only) binding of `k`. -/
def dictFind : Store → String → Option Cred
  | [], _ => none
  | (a, b) :: t, k => if a = k then some b else dictFind t k

/-- Python `data.update({k: v})` on a dict: replace the value in place when
the key is present, append the binding otherwise. -/
def dictInsert : Store → String → Cred → Store
  | [], k, v => [(k, v)]
  | (a, b) :: t, k, v => if a = k then (k, v) :: t else (a, b) :: dictInsert t k v

/-- The `try/except (FileNotFoundError, json.decoder.JSONDecodeError):
data = {}` block of `save`: both exceptions are caught and yield the empty
store. -/
def loadOrEmpty (file : FileState) : Store :=
  match loadStore file with
  | .ok d => d
  | .error _ => []

/-- Outcome of `save` as surfaced to the user. -/
inductive SaveResult
  | emptyField
  | invalidEmail
  | saved
deriving DecidableEq, Repr

/-- Function `save` from main.py: the three entry fields come in as arguments, the
result is the message shown plus the file state after the call.  The
checks mirror the source order: `len(website) == 0 or len(password) == 0
or len(email) == 0` first, then `"@" not in email or "." not in email`;
only the final branch touches the file, rewriting it with the updated
mapping under the key `website.title()`. -/
def save (file : FileState) (website email password : String) :
    SaveResult × FileState :=
  if website.length = 0 ∨ password.length = 0 ∨ email.length = 0 then
    (SaveResult.emptyField, file)
  else if '@' ∉ email.toList ∨ '.' ∉ email.toList then
    (SaveResult.invalidEmail, file)
  else
    (SaveResult.saved,
      FileState.valid
        (dictInsert (loadOrEmpty file) (saveKey website) ⟨email, password⟩))

/-- Outcome of `find_password` as surfaced to the user. -/
inductive FindResult
  | storeMissing
  | entryNotFound (website : String)
  | found (website : String) (c : Cred)
deriving DecidableEq, Repr

/-- Function `find_password` from main.py: title-case the entered website, try to
load the file catching only `FileNotFoundError` (shown as "No Data File
Found"); any other exception from loading propagates as `Except.error`.
On a loaded mapping, `if website in data` selects between the found
message and "No details found for {website}". -/
def find_password (file : FileState) (website : String) :
    Except PyExc FindResult :=
  let key := findKey website
  match loadStore file with
  | .error PyExc.fileNotFoundError => .ok FindResult.storeMissing
  | .error e => .error e
  | .ok data =>
    match dictFind data key with
    | some c => .ok (FindResult.found key c)
    | none => .ok (FindResult.entryNotFound key)

/-- Count of characters of a string that belong to a given pool. -/
def countIn (s : String) (pool : List Char) : Nat :=
  s.toList.countP fun c => decide (c ∈ pool)

/-! ### Lemmas about the generator -/

theorem choice_mem (pool : List Char) (hpool : pool ≠ []) (i : Nat) :
    choice pool i ∈ pool := by
  have hlen : 0 < pool.length := List.length_pos.mpr hpool
  have hlt : i % pool.length < pool.length := Nat.mod_lt _ hlen
  rw [choice, List.getD_eq_getElem?_getD, List.getElem?_eq_getElem hlt,
    Option.getD_some]
  exact List.getElem_mem hlt

theorem symbols_not_letters : ∀ c ∈ symbols, c ∉ letters := by decide

theorem numbers_not_letters : ∀ c ∈ numbers, c ∉ letters := by decide

theorem letters_not_symbols : ∀ c ∈ letters, c ∉ symbols := by decide

theorem numbers_not_symbols : ∀ c ∈ numbers, c ∉ symbols := by decide

theorem letters_not_numbers : ∀ c ∈ letters, c ∉ numbers := by decide

theorem symbols_not_numbers : ∀ c ∈ symbols, c ∉ numbers := by decide

/-- All draws from a pool satisfy membership in that pool, so the draw
segment contributes its full length to the count for that pool. -/
theorem countP_draws_self (pool : List Char) (hpool : pool ≠ [])
    (n : Nat) (idx : Nat → Nat) :
    (((List.range n).map fun k => choice pool (idx k)).countP
      fun c => decide (c ∈ pool)) = n := by
  rw [List.countP_eq_length.mpr, List.length_map, List.length_range]
  intro a ha
  simp only [List.mem_map] at ha
  obtain ⟨k, -, rfl⟩ := ha
  exact decide_eq_true (choice_mem pool hpool (idx k))

/-- Draws from a pool disjoint from `qool` contribute nothing to the count
for `qool`. -/
theorem countP_draws_other (pool qool : List Char) (hpool : pool ≠ [])
    (hdisj : ∀ c ∈ pool, c ∉ qool) (n : Nat) (idx : Nat → Nat) :
    (((List.range n).map fun k => choice pool (idx k)).countP
      fun c => decide (c ∈ qool)) = 0 := by
  rw [List.countP_eq_zero.mpr]
  intro a ha
  simp only [List.mem_map] at ha
  obtain ⟨k, -, rfl⟩ := ha
  simp only [decide_eq_true_eq]
  exact hdisj _ (choice_mem pool hpool (idx k))

theorem passwordChars_length (nrLetter nrSymbols nrNumbers : Nat)
    (idxL idxS idxN : Nat → Nat) :
    (passwordChars nrLetter nrSymbols nrNumbers idxL idxS idxN).length =
      nrLetter + nrSymbols + nrNumbers := by
  simp [passwordChars]
  omega

theorem passwordChars_countIn (nrLetter nrSymbols nrNumbers : Nat)
    (idxL idxS idxN : Nat → Nat) :
    ((passwordChars nrLetter nrSymbols nrNumbers idxL idxS idxN).countP
        fun c => decide (c ∈ letters)) = nrLetter ∧
    ((passwordChars nrLetter nrSymbols nrNumbers idxL idxS idxN).countP
        fun c => decide (c ∈ symbols)) = nrSymbols ∧
    ((passwordChars nrLetter nrSymbols nrNumbers idxL idxS idxN).countP
        fun c => decide (c ∈ numbers)) = nrNumbers := by
  unfold passwordChars
  rw [List.countP_append, List.countP_append, List.countP_append,
    List.countP_append, List.countP_append, List.countP_append]
  rw [countP_draws_self letters (by decide) nrLetter idxL,
    countP_draws_self symbols (by decide) nrSymbols idxS,
    countP_draws_self numbers (by decide) nrNumbers idxN,
    countP_draws_other symbols letters (by decide) symbols_not_letters nrSymbols idxS,
    countP_draws_other numbers letters (by decide) numbers_not_letters nrNumbers idxN,
    countP_draws_other letters symbols (by decide) letters_not_symbols nrLetter idxL,
    countP_draws_other numbers symbols (by decide) numbers_not_symbols nrNumbers idxN,
    countP_draws_other letters numbers (by decide) letters_not_numbers nrLetter idxL,
    countP_draws_other symbols numbers (by decide) symbols_not_numbers nrSymbols idxS]
  omega

theorem passwordChars_mem_pools (nrLetter nrSymbols nrNumbers : Nat)
    (idxL idxS idxN : Nat → Nat) (c : Char)
    (hc : c ∈ passwordChars nrLetter nrSymbols nrNumbers idxL idxS idxN) :
    c ∈ letters ∨ c ∈ numbers ∨ c ∈ symbols := by
  unfold passwordChars at hc
  rw [List.mem_append, List.mem_append] at hc
  rcases hc with (h | h) | h <;> simp only [List.mem_map] at h <;>
    obtain ⟨k, -, rfl⟩ := h
  · exact Or.inl (choice_mem letters (by decide) (idxL k))
  · exact Or.inr (Or.inr (choice_mem symbols (by decide) (idxS k)))
  · exact Or.inr (Or.inl (choice_mem numbers (by decide) (idxN k)))

/-- Claim C1: every password produced by `generate` has length between 12
and 20, contains at least 8 characters from the letters pool, between 2
and 5 characters from the symbols pool, between 2 and 5 characters from
the digits pool, and consists only of characters from the three fixed
pools.  The drawn counts are constrained exactly as `random.randint(8,10)`
and `random.randint(2,5)` constrain them, and the shuffle is assumed to
permute the drawn characters, as `random.shuffle` does. -/
theorem generate_composition (nrLetter nrSymbols nrNumbers : Nat)
    (hL1 : 8 ≤ nrLetter) (hL2 : nrLetter ≤ 10)
    (hS1 : 2 ≤ nrSymbols) (hS2 : nrSymbols ≤ 5)
    (hN1 : 2 ≤ nrNumbers) (hN2 : nrNumbers ≤ 5)
    (idxL idxS idxN : Nat → Nat) (shuffle : List Char → List Char)
    (hshuffle : (shuffle (passwordChars nrLetter nrSymbols nrNumbers idxL idxS idxN)).Perm
      (passwordChars nrLetter nrSymbols nrNumbers idxL idxS idxN)) :
    12 ≤ (generate nrLetter nrSymbols nrNumbers idxL idxS idxN shuffle).length ∧
    (generate nrLetter nrSymbols nrNumbers idxL idxS idxN shuffle).length ≤ 20 ∧
    8 ≤ countIn (generate nrLetter nrSymbols nrNumbers idxL idxS idxN shuffle) letters ∧
    2 ≤ countIn (generate nrLetter nrSymbols nrNumbers idxL idxS idxN shuffle) symbols ∧
    countIn (generate nrLetter nrSymbols nrNumbers idxL idxS idxN shuffle) symbols ≤ 5 ∧
    2 ≤ countIn (generate nrLetter nrSymbols nrNumbers idxL idxS idxN shuffle) numbers ∧
    countIn (generate nrLetter nrSymbols nrNumbers idxL idxS idxN shuffle) numbers ≤ 5 ∧
    ∀ c ∈ (generate nrLetter nrSymbols nrNumbers idxL idxS idxN shuffle).toList,
      c ∈ letters ∨ c ∈ numbers ∨ c ∈ symbols := by
  have hlen :
      (generate nrLetter nrSymbols nrNumbers idxL idxS idxN shuffle).length =
        nrLetter + nrSymbols + nrNumbers := by
    show (shuffle (passwordChars nrLetter nrSymbols nrNumbers idxL idxS idxN)).length = _
    rw [hshuffle.length_eq, passwordChars_length]
  have hcounts := passwordChars_countIn nrLetter nrSymbols nrNumbers idxL idxS idxN
  have hcL :
      countIn (generate nrLetter nrSymbols nrNumbers idxL idxS idxN shuffle) letters
        = nrLetter := by
    show ((shuffle (passwordChars nrLetter nrSymbols nrNumbers idxL idxS idxN)).countP _) = _
    rw [hshuffle.countP_eq]
    exact hcounts.1
  have hcS :
      countIn (generate nrLetter nrSymbols nrNumbers idxL idxS idxN shuffle) symbols
        = nrSymbols := by
    show ((shuffle (passwordChars nrLetter nrSymbols nrNumbers idxL idxS idxN)).countP _) = _
    rw [hshuffle.countP_eq]
    exact hcounts.2.1
  have hcN :
      countIn (generate nrLetter nrSymbols nrNumbers idxL idxS idxN shuffle) numbers
        = nrNumbers := by
    show ((shuffle (passwordChars nrLetter nrSymbols nrNumbers idxL idxS idxN)).countP _) = _
    rw [hshuffle.countP_eq]
    exact hcounts.2.2
  refine ⟨by omega, by omega, by omega, by omega, by omega, by omega, by omega, ?_⟩
  intro c hc
  have hc2 : c ∈ passwordChars nrLetter nrSymbols nrNumbers idxL idxS idxN :=
    hshuffle.mem_iff.mp hc
  exact passwordChars_mem_pools nrLetter nrSymbols nrNumbers idxL idxS idxN c hc2

/-- Concrete instance of claim C1: the minimal draw (8 letters, 2 symbols,
2 digits), every choice taking index 0, identity shuffle. -/
theorem generate_composition_witness :
    12 ≤ (generate 8 2 2 (fun _ => 0) (fun _ => 0) (fun _ => 0) id).length ∧
    8 ≤ countIn (generate 8 2 2 (fun _ => 0) (fun _ => 0) (fun _ => 0) id) letters ∧
    2 ≤ countIn (generate 8 2 2 (fun _ => 0) (fun _ => 0) (fun _ => 0) id) symbols ∧
    2 ≤ countIn (generate 8 2 2 (fun _ => 0) (fun _ => 0) (fun _ => 0) id) numbers := by
  have h := generate_composition 8 2 2 (by decide) (by decide) (by decide) (by decide)
    (by decide) (by decide) (fun _ => 0) (fun _ => 0) (fun _ => 0) id (List.Perm.refl _)
  exact ⟨h.1, h.2.2.1, h.2.2.2.1, h.2.2.2.2.2.1⟩

/-! ### Lemmas about the dict operations -/

theorem dictFind_dictInsert_self (d : Store) (k : String) (v : Cred) :
    dictFind (dictInsert d k v) k = some v := by
  induction d with
  | nil => simp [dictInsert, dictFind]
  | cons hd t ih =>
    obtain ⟨a, b⟩ := hd
    by_cases h : a = k
    · simp [dictInsert, dictFind, h]
    · simp [dictInsert, dictFind, h, ih]

theorem dictFind_dictInsert_ne (d : Store) (k k2 : String) (v : Cred)
    (h : k2 ≠ k) :
    dictFind (dictInsert d k v) k2 = dictFind d k2 := by
  induction d with
  | nil =>
    simp only [dictInsert, dictFind]
    rw [if_neg (fun hk => h hk.symm)]
  | cons hd t ih =>
    obtain ⟨a, b⟩ := hd
    by_cases ha : a = k
    · subst ha
      simp only [dictInsert, if_pos rfl, dictFind]
      rw [if_neg (fun hk => h hk.symm), if_neg (fun hk => h hk.symm)]
    · simp only [dictInsert, if_neg ha, dictFind]
      by_cases ha2 : a = k2
      · rw [if_pos ha2, if_pos ha2]
      · rw [if_neg ha2, if_neg ha2, ih]

/-! ### Lemmas about the title-case normalization -/

theorem titleAux_length (l : List Char) :
    ∀ prevAlpha, (titleAux prevAlpha l).length = l.length := by
  induction l with
  | nil => intro _; rfl
  | cons c cs ih => intro prevAlpha; simp [titleAux, ih]

/-- Pointwise description of `titleAux`: position `i` of the output is the
input character at `i`, transformed according to whether the previous input
character (or the carry, at position 0) is alphabetic. -/
theorem titleAux_getD (l : List Char) :
    ∀ (prevAlpha : Bool) (i : Nat), i < l.length →
      (titleAux prevAlpha l).getD i ' ' =
        titleChar (if i = 0 then prevAlpha else (l.getD (i - 1) ' ').isAlpha)
          (l.getD i ' ') := by
  induction l with
  | nil => intro _ i hi; simp at hi
  | cons c cs ih =>
    intro prevAlpha i hi
    match i with
    | 0 => simp [titleAux]
    | Nat.succ j =>
      have hj : j < cs.length := by simpa using hi
      show (titleChar prevAlpha c :: titleAux c.isAlpha cs).getD (j + 1) ' ' = _
      rw [List.getD_cons_succ, ih c.isAlpha j hj]
      congr 1
      match j with
      | 0 => simp
      | Nat.succ m => simp

/-- A string without alphabetic characters is unchanged by `titleAux`. -/
theorem titleAux_eq_of_no_alpha (l : List Char) :
    ∀ prevAlpha, (∀ c ∈ l, c.isAlpha = false) → titleAux prevAlpha l = l := by
  induction l with
  | nil => intro _ _; rfl
  | cons c cs ih =>
    intro prevAlpha h
    have hc : c.isAlpha = false := h c (by simp)
    simp [titleAux, titleChar, hc, ih _ (fun x hx => h x (by simp [hx]))]

theorem isWhitespace_not_isAlpha (c : Char) (h : c.isWhitespace = true) :
    c.isAlpha = false := by
  simp [Char.isWhitespace] at h
  rcases h with ((rfl | rfl) | rfl) | rfl <;> rfl

theorem string_length_ne_zero_of_ne_empty (s : String) (h : s ≠ "") :
    s.length ≠ 0 := by
  intro h0
  apply h
  cases s with
  | mk data => simp at h0; subst h0; rfl

/-! ### Lemmas about save -/

/-- When all three fields are nonempty and the email contains both `@` and
`.`, `save` reaches its final branch: it reports success and rewrites the
file with the updated mapping. -/
theorem save_eq_of_valid (file : FileState) (w e p : String)
    (hw : w.length ≠ 0) (hp : p.length ≠ 0) (he : e.length ≠ 0)
    (hat : '@' ∈ e.toList) (hdot : '.' ∈ e.toList) :
    save file w e p =
      (SaveResult.saved,
        FileState.valid (dictInsert (loadOrEmpty file) (saveKey w) ⟨e, p⟩)) := by
  rw [save, if_neg (by tauto), if_neg (by tauto)]

/-- Validation characterization: `save` reports success exactly when all
three fields are nonempty and the email contains `@` and `.`. -/
theorem save_saved_iff (file : FileState) (w e p : String) :
    (save file w e p).fst = SaveResult.saved ↔
      (w.length ≠ 0 ∧ p.length ≠ 0 ∧ e.length ≠ 0 ∧
        '@' ∈ e.toList ∧ '.' ∈ e.toList) := by
  rw [save]
  split_ifs with h1 h2
  · constructor
    · intro h; simp at h
    · intro h; tauto
  · constructor
    · intro h; simp at h
    · intro h; tauto
  · push_neg at h1 h2
    constructor
    · intro _; tauto
    · intro _; rfl

/-! ### Claim theorems -/

/-- Claim C2: after a successful `save(website, email, password)`, a
`find` for any website whose normalized key equals the normalized key of
the saved website returns the stored `{email, password}` pair unchanged. -/
theorem save_find_roundtrip (file : FileState) (website email password w2 : String)
    (hsaved : (save file website email password).fst = SaveResult.saved)
    (hkey : pyTitle w2 = pyTitle website) :
    find_password (save file website email password).snd w2 =
      Except.ok (FindResult.found (pyTitle w2) ⟨email, password⟩) := by
  obtain ⟨hw, hp, he, hat, hdot⟩ := (save_saved_iff file website email password).mp hsaved
  rw [save_eq_of_valid file website email password hw hp he hat hdot]
  have hfind := dictFind_dictInsert_self (loadOrEmpty file)
    (saveKey website) (⟨email, password⟩ : Cred)
  simp only [saveKey] at hfind
  simp [find_password, loadStore, findKey, saveKey, hkey, hfind]

/-- Concrete instance of claim C2: saving `example.com` and looking up
`Example.Com` returns the stored credential. -/
theorem save_find_roundtrip_witness :
    find_password (save FileState.missing "example.com" "a@b.com" "pw1").snd
        "Example.Com" =
      Except.ok (FindResult.found "Example.Com" ⟨"a@b.com", "pw1"⟩) := by
  have h := save_find_roundtrip FileState.missing "example.com" "a@b.com" "pw1"
    "Example.Com" (by decide) (by decide)
  rw [h]
  rfl

/-- Claim C3, counterexample: the normalization the code applies is Python
`str.title()`, which starts a new word at every non-letter, not only at
whitespace.  On `"example.com"` the code's key is `"Example.Com"` while
title case over whitespace-separated words gives `"Example.com"`. -/
theorem title_whitespace_counterexample :
    saveKey "example.com" = "Example.Com" ∧
    wordTitle "example.com" = "Example.com" ∧
    saveKey "example.com" ≠ wordTitle "example.com" := by
  refine ⟨by decide, by decide, by decide⟩

/-- Claim C3 as amended: the key normalization applied by both `save` and
`find` is Python title case — an alphabetic character is uppercased when
it starts the string or follows a non-alphabetic character and lowercased
when it follows an alphabetic character, and non-alphabetic characters
pass through; word boundaries are all non-letters, not only whitespace.
Both operations compute the same normalized key, and normalization
preserves the length. -/
theorem title_normalization (s : String) :
    saveKey s = findKey s ∧
    (pyTitle s).length = s.length ∧
    ∀ i, i < s.length →
      (pyTitle s).toList.getD i ' ' =
        (if (s.toList.getD i ' ').isAlpha then
          (if i = 0 then (s.toList.getD i ' ').toUpper
           else if (s.toList.getD (i - 1) ' ').isAlpha then
             (s.toList.getD i ' ').toLower
           else (s.toList.getD i ' ').toUpper)
         else s.toList.getD i ' ') := by
  refine ⟨rfl, titleAux_length s.toList false, ?_⟩
  intro i hi
  have h := titleAux_getD s.toList false i hi
  have hlist : (pyTitle s).toList = titleAux false s.toList := rfl
  rw [hlist, h, titleChar]
  by_cases hi0 : i = 0
  · simp [hi0]
  · by_cases hprev : (s.toList.getD (i - 1) ' ').isAlpha
    · simp [hi0, hprev]
    · simp [hi0, hprev]

/-- Concrete instance of the amended claim C3: in `"ab cd.ef"` position 3
(`c`, after a space) and position 6 (`e`, after a dot) are both uppercased,
position 1 (`b`, after a letter) is lowercased. -/
theorem title_normalization_witness :
    saveKey "ab cd.ef" = findKey "ab cd.ef" ∧
    (pyTitle "ab cd.ef").toList.getD 1 ' ' = 'b' ∧
    (pyTitle "ab cd.ef").toList.getD 3 ' ' = 'C' ∧
    (pyTitle "ab cd.ef").toList.getD 6 ' ' = 'E' := by
  have h := title_normalization "ab cd.ef"
  refine ⟨h.1, ?_, ?_, ?_⟩
  · rw [h.2.2 1 (by decide)]; decide
  · rw [h.2.2 3 (by decide)]; decide
  · rw [h.2.2 6 (by decide)]; decide

/-- Claim C4: `save` validates fail-fast in a fixed order — any empty
field yields `EmptyField` (regardless of the email's validity), then an
email missing `@` or `.` yields `InvalidEmail`, and otherwise validation
succeeds and the store is updated; the file is untouched in the two error
cases. -/
theorem save_validation_order (file : FileState) (w e p : String) :
    ((w.length = 0 ∨ p.length = 0 ∨ e.length = 0) →
      save file w e p = (SaveResult.emptyField, file)) ∧
    (w.length ≠ 0 → p.length ≠ 0 → e.length ≠ 0 →
      ('@' ∉ e.toList ∨ '.' ∉ e.toList) →
      save file w e p = (SaveResult.invalidEmail, file)) ∧
    (w.length ≠ 0 → p.length ≠ 0 → e.length ≠ 0 →
      '@' ∈ e.toList → '.' ∈ e.toList →
      save file w e p =
        (SaveResult.saved,
          FileState.valid (dictInsert (loadOrEmpty file) (saveKey w) ⟨e, p⟩))) := by
  refine ⟨?_, ?_, ?_⟩
  · intro h
    rw [save, if_pos h]
  · intro hw hp he hmail
    rw [save, if_neg (by tauto), if_pos hmail]
  · intro hw hp he hat hdot
    exact save_eq_of_valid file w e p hw hp he hat hdot

/-- Concrete instances of claim C4: an empty email with an invalid email
string still reports `EmptyField`; a nonempty invalid email reports
`InvalidEmail`; valid inputs are saved. -/
theorem save_validation_order_witness :
    save FileState.missing "x" "" "pw" = (SaveResult.emptyField, FileState.missing) ∧
    save FileState.missing "x" "noatsign" "pw" =
      (SaveResult.invalidEmail, FileState.missing) ∧
    (save FileState.missing "x" "a@b.com" "pw").fst = SaveResult.saved := by
  refine ⟨(save_validation_order FileState.missing "x" "" "pw").1 (by decide),
    (save_validation_order FileState.missing "x" "noatsign" "pw").2.1
      (by decide) (by decide) (by decide) (by decide), ?_⟩
  rw [(save_validation_order FileState.missing "x" "a@b.com" "pw").2.2
    (by decide) (by decide) (by decide) (by decide) (by decide)]

/-- Claim C5: a `save` that fails validation leaves the persistence file
exactly as it was — nothing is created, written, or modified. -/
theorem save_validation_failure_preserves_file (file : FileState) (w e p : String)
    (h : (save file w e p).fst ≠ SaveResult.saved) :
    (save file w e p).snd = file := by
  rw [save] at h ⊢
  split_ifs at h ⊢
  · rfl
  · rfl
  · exact absurd rfl h

/-- Concrete instance of claim C5: `save("x", "", "pw")` fails validation
and the existing store file is untouched. -/
theorem save_validation_failure_preserves_file_witness :
    (save (FileState.valid [("A", ⟨"a@b.c", "q"⟩)]) "x" "" "pw").snd =
      FileState.valid [("A", ⟨"a@b.c", "q"⟩)] :=
  save_validation_failure_preserves_file
    (FileState.valid [("A", ⟨"a@b.c", "q"⟩)]) "x" "" "pw" (by decide)

/-- Claim C6: a successful `save` over an existing parsed store rewrites
the file with a mapping in which every key other than the normalized
website key is bound exactly as before, and the normalized website key is
bound to the new `{email, password}` (silently replacing any previous
binding). -/
theorem save_frame (d : Store) (w e p : String)
    (hsaved : (save (FileState.valid d) w e p).fst = SaveResult.saved) :
    (save (FileState.valid d) w e p).snd =
      FileState.valid (dictInsert d (saveKey w) ⟨e, p⟩) ∧
    (∀ k, k ≠ saveKey w →
      dictFind (dictInsert d (saveKey w) ⟨e, p⟩) k = dictFind d k) ∧
    dictFind (dictInsert d (saveKey w) ⟨e, p⟩) (saveKey w) = some ⟨e, p⟩ := by
  obtain ⟨hw, hp, he, hat, hdot⟩ := (save_saved_iff _ w e p).mp hsaved
  refine ⟨?_, fun k hk => dictFind_dictInsert_ne d (saveKey w) k ⟨e, p⟩ hk,
    dictFind_dictInsert_self d (saveKey w) ⟨e, p⟩⟩
  rw [save_eq_of_valid (FileState.valid d) w e p hw hp he hat hdot]
  rfl

/-- Concrete instance of claim C6: overwriting `Beta` in a two-entry store
keeps `Alpha` bound as before and leaves only the latest password for
`Beta`. -/
theorem save_frame_witness :
    dictFind (dictInsert [("Alpha", ⟨"a@b.c", "p1"⟩), ("Beta", ⟨"c@d.e", "p2"⟩)]
        (saveKey "beta") ⟨"c@d.e", "p3"⟩) "Alpha" = some ⟨"a@b.c", "p1"⟩ ∧
    dictFind (dictInsert [("Alpha", ⟨"a@b.c", "p1"⟩), ("Beta", ⟨"c@d.e", "p2"⟩)]
        (saveKey "beta") ⟨"c@d.e", "p3"⟩) (saveKey "beta") = some ⟨"c@d.e", "p3"⟩ := by
  have h := save_frame [("Alpha", ⟨"a@b.c", "p1"⟩), ("Beta", ⟨"c@d.e", "p2"⟩)]
    "beta" "c@d.e" "p3" (by decide)
  exact ⟨h.2.1 "Alpha" (by decide), h.2.2⟩

/-- Claim C7: `find` fails with `StoreMissing` when the file is absent,
fails with `EntryNotFound` carrying the (normalized) website name when the
file parses but lacks the key, and succeeds exactly when the file exists,
parses, and contains the normalized key. -/
theorem find_error_behavior (file : FileState) (w : String) :
    (file = FileState.missing →
      find_password file w = Except.ok FindResult.storeMissing) ∧
    (∀ d, file = FileState.valid d → dictFind d (findKey w) = none →
      find_password file w = Except.ok (FindResult.entryNotFound (findKey w))) ∧
    ((∃ c, find_password file w = Except.ok (FindResult.found (findKey w) c)) ↔
      (∃ d, file = FileState.valid d ∧ (dictFind d (findKey w)).isSome)) := by
  refine ⟨?_, ?_, ?_, ?_⟩
  · intro h; subst h; rfl
  · intro d h hnone
    subst h
    simp [find_password, loadStore, hnone]
  · rintro ⟨c, hc⟩
    cases file with
    | missing => simp [find_password, loadStore] at hc
    | corrupt => simp [find_password, loadStore] at hc
    | valid d =>
      refine ⟨d, rfl, ?_⟩
      cases hd : dictFind d (findKey w) with
      | none => simp [find_password, loadStore, hd] at hc
      | some c2 => simp [hd]
  · rintro ⟨d, rfl, hsome⟩
    obtain ⟨c, hc⟩ := Option.isSome_iff_exists.mp hsome
    exact ⟨c, by simp [find_password, loadStore, hc]⟩

/-- Concrete instances of claim C7: a missing file gives `StoreMissing`, a
parsed store without the key gives `EntryNotFound` with the normalized
name. -/
theorem find_error_behavior_witness :
    find_password FileState.missing "anything" = Except.ok FindResult.storeMissing ∧
    find_password (FileState.valid [("Other", ⟨"a@b.c", "q"⟩)]) "anything" =
      Except.ok (FindResult.entryNotFound (findKey "anything")) := by
  refine ⟨(find_error_behavior FileState.missing "anything").1 rfl,
    (find_error_behavior (FileState.valid [("Other", ⟨"a@b.c", "q"⟩)]) "anything").2.1
      [("Other", ⟨"a@b.c", "q"⟩)] rfl (by decide)⟩

/-- Claim C8: a `save` that passes validation over a missing or corrupt
persistence file treats the store as empty and succeeds, writing a file
containing exactly the one new entry. -/
theorem save_self_healing (file : FileState) (w e p : String)
    (hfile : file = FileState.missing ∨ file = FileState.corrupt)
    (hw : w.length ≠ 0) (hp : p.length ≠ 0) (he : e.length ≠ 0)
    (hat : '@' ∈ e.toList) (hdot : '.' ∈ e.toList) :
    save file w e p = (SaveResult.saved, FileState.valid [(saveKey w, ⟨e, p⟩)]) := by
  have hload : loadOrEmpty file = [] := by rcases hfile with rfl | rfl <;> rfl
  rw [save_eq_of_valid file w e p hw hp he hat hdot, hload]
  rfl

/-- Concrete instance of claim C8: saving over a corrupt file succeeds and
writes the single new entry. -/
theorem save_self_healing_witness :
    save FileState.corrupt "site" "a@b.c" "pw" =
      (SaveResult.saved, FileState.valid [(saveKey "site", ⟨"a@b.c", "pw"⟩)]) :=
  save_self_healing FileState.corrupt "site" "a@b.c" "pw" (Or.inr rfl)
    (by decide) (by decide) (by decide) (by decide) (by decide)

/-- Claim C9: when the persistence file exists but does not parse, the
parse error propagates out of `find` uncaught — it is not converted into
any user-facing result (`StoreMissing`, `EntryNotFound` or a found
credential), unlike the defensive handling in `save`. -/
theorem find_corrupt_propagates (w : String) :
    find_password FileState.corrupt w = Except.error PyExc.jsonDecodeError ∧
    ∀ r, find_password FileState.corrupt w ≠ Except.ok r := by
  refine ⟨rfl, ?_⟩
  intro r h
  simp [find_password, loadStore] at h

/-- Concrete instance of claim C9. -/
theorem find_corrupt_propagates_witness :
    find_password FileState.corrupt "anything" =
      Except.error PyExc.jsonDecodeError :=
  (find_corrupt_propagates "anything").1

/-- Claim C10: the emptiness check of `save` tests only string length, so
whitespace-only website and password fields pass it; with an email
containing `@` and `.` the save succeeds, and the storage key is the
title-cased whitespace-only website, which is the whitespace string
itself. -/
theorem save_whitespace_accepted (file : FileState) (w e p : String)
    (hw : w ≠ "") (hp : p ≠ "")
    (hwws : ∀ c ∈ w.toList, c.isWhitespace)
    ( _hpws : ∀ c ∈ p.toList, c.isWhitespace)
    (hat : '@' ∈ e.toList) (hdot : '.' ∈ e.toList) :
    (save file w e p).fst = SaveResult.saved ∧
    (save file w e p).snd =
      FileState.valid (dictInsert (loadOrEmpty file) (saveKey w) ⟨e, p⟩) ∧
    saveKey w = w := by
  have hw0 : w.length ≠ 0 := string_length_ne_zero_of_ne_empty w hw
  have hp0 : p.length ≠ 0 := string_length_ne_zero_of_ne_empty p hp
  have he0 : e.length ≠ 0 := by
    intro h0
    have hnil : e.toList = [] := List.length_eq_zero.mp h0
    rw [hnil] at hat
    simp at hat
  have hsave := save_eq_of_valid file w e p hw0 hp0 he0 hat hdot
  refine ⟨by rw [hsave], by rw [hsave], ?_⟩
  show pyTitle w = w
  rw [pyTitle, titleAux_eq_of_no_alpha w.toList false
    (fun c hc => isWhitespace_not_isAlpha c (hwws c hc))]
  exact rfl

/-- Concrete instance of claim C10: website and password both a single
space are accepted and the entry is stored under the key `" "`. -/
theorem save_whitespace_accepted_witness :
    (save FileState.missing " " "a@b.c" " ").fst = SaveResult.saved ∧
    saveKey " " = " " := by
  have h := save_whitespace_accepted FileState.missing " " "a@b.c" " "
    (by decide) (by decide) (by decide) (by decide) (by decide) (by decide)
  exact ⟨h.1, h.2.2⟩

end PasswordManager
